import Mathlib

/-!
Shallow embedding of the soundCompression FLAC encoder (packages `flac` and
`audio`) and verification of the frozen claims about it.

Bytes are modelled as `Nat` values below 256, byte slices as `List Nat`,
Go `int32` sample values as `Int` with explicit two's-complement truncation
modulo 2^32 where the source converts, and fallible operations as `Except`
values.  File I/O is modelled deterministically: the underlying file is a
list of its remaining bytes, a read consumes a prefix, and the output sink
always accepts bytes (I/O faults are outside the properties considered).
-/

namespace SoundCompression

/-! ## Byte-order primitives (`encoding/binary`) -/

/-- Little-endian byte list of a 32-bit unsigned value, as laid out by
`binary.Write(..., binary.LittleEndian, sample)` for an `int32` after
two's-complement reinterpretation. -/
def uint32LEBytes (n : Nat) : List Nat :=
  [n % 256, n / 256 % 256, n / 65536 % 256, n / 16777216 % 256]

/-- Go `int32` to its 4 little-endian bytes: the value is reinterpreted as
`uint32` (two's complement, i.e. reduction modulo 2^32) and serialized
little-endian, exactly what `binary.Write` with `binary.LittleEndian` emits. -/
def int32ToLEBytes (v : Int) : List Nat :=
  uint32LEBytes ((v % 4294967296).toNat)

/-- Reading 4 little-endian bytes back as a signed 32-bit value
(two's-complement interpretation of the unsigned reassembly). -/
def leBytesToInt32 (b0 b1 b2 b3 : Nat) : Int :=
  let u := b0 + 256 * b1 + 65536 * b2 + 16777216 * b3
  if u < 2147483648 then (u : Int) else (u : Int) - 4294967296

/-- Big-endian 2-byte layout of a 16-bit value
(`binary.BigEndian.PutUint16`). -/
def beBytes2 (n : Nat) : List Nat :=
  [n / 256 % 256, n % 256]

/-- Big-endian 4-byte layout of a 32-bit value
(`binary.BigEndian.PutUint32`). -/
def beBytes4 (n : Nat) : List Nat :=
  [n / 16777216 % 256, n / 65536 % 256, n / 256 % 256, n % 256]

/-- Big-endian 8-byte layout of a 64-bit value
(`binary.BigEndian.PutUint64`). -/
def beBytes8 (n : Nat) : List Nat :=
  [n / 72057594037927936 % 256, n / 281474976710656 % 256,
   n / 1099511627776 % 256, n / 4294967296 % 256,
   n / 16777216 % 256, n / 65536 % 256, n / 256 % 256, n % 256]

/-! ## The block payload written by `encodeBlock` (src/flac/encoder.go)

`encodeBlock` writes each `int32` sample to the output with
`binary.Write(e.output, binary.LittleEndian, sample)`; the block payload is
therefore the concatenation of the samples' 4-byte little-endian images. -/

/-- Byte sequence `encodeBlock` appends to the output for one block of
samples. -/
def encodeBlockBytes (samples : List Int) : List Nat :=
  (samples.map int32ToLEBytes).flatten

/-- Inverse of the raw little-endian `int32` layout produced by
`encodeBlock`: consume the byte stream 4 bytes at a time. -/
def decodeSampleBytes : List Nat → List Int
  | b0 :: b1 :: b2 :: b3 :: rest => leBytesToInt32 b0 b1 b2 b3 :: decodeSampleBytes rest
  | _ => []

/-! ## The STREAMINFO metadata body (`writeStreamInfo`, src/flac/encoder.go)

`writeStreamInfo` allocates a zeroed 34-byte array and performs a sequence of
positioned writes into it.  `writeAt dst off src` mirrors both
`binary.BigEndian.PutUintN(dst[off:..], v)` (the slice is exactly `src` long
there) and Go's `copy(dst[off:], src)`, which copies
`min(len(src), len(dst) - off)` bytes: writing stops when the destination
runs out. -/

/-- Write the bytes `vals` into `arr` starting at offset `off`, truncated at
the end of `arr` (Go slice-copy semantics). -/
def writeAt : List Nat → Nat → List Nat → List Nat
  | arr, _, [] => arr
  | [], _, _ :: _ => []
  | _ :: arr, 0, v :: vals => v :: writeAt arr 0 vals
  | a :: arr, n + 1, vals => a :: writeAt arr n vals

/-- Byte 14 of the STREAMINFO body as the source computes it:
`byte(e.input.Channels()-1)<<4 | byte(e.input.BitDepth()-1)`.  Go's `byte(x)`
conversion of an `int` truncates two's-complement (reduction modulo 256), the
shift of a `byte` stays within a byte, and `|` is bitwise or. -/
def packedChannelsDepthByte (channels bitDepth : Int) : Nat :=
  ((channels - 1) % 256).toNat * 16 % 256 |||
    ((bitDepth - 1) % 256).toNat

/-- Channel-count/bit-depth byte as the specification words it: the channel
count stored as value minus 1 in the upper 3 bits of the byte and the bit
depth stored as value minus 1 in the adjacent (low) 5 bits.  Modelled from
the spec for comparison with `packedChannelsDepthByte`. -/
def specChannelsDepthByte (channels bitDepth : Int) : Nat :=
  ((channels - 1) % 256).toNat * 32 % 256 |||
    ((bitDepth - 1) % 256).toNat

/-- The 34-byte STREAMINFO body assembled by `writeStreamInfo`
(src/flac/encoder.go lines 187-205): a zeroed 34-byte array, then
`PutUint16` of the minimum block size at offset 0, `PutUint16` of the
maximum block size at offset 2, `PutUint32` of the sample rate shifted left
4 at offset 10, the packed channels/bit-depth byte at offset 14, `PutUint64`
of the total sample count at offset 18, and finally `copy(streamInfo[18:],
md5sum)`.  Numeric conversions (`uint16(..)`, `uint32(..)`, `uint64(..)`)
truncate as in Go. -/
def streamInfoBytes (minBS maxBS sampleRate : Nat) (channels bitDepth : Int)
    (totalSamples : Nat) (md5sum : List Nat) : List Nat :=
  let s0 := List.replicate 34 0
  let s1 := writeAt s0 0 (beBytes2 (minBS % 65536))
  let s2 := writeAt s1 2 (beBytes2 (maxBS % 65536))
  let s3 := writeAt s2 10 (beBytes4 (sampleRate % 4294967296 * 16 % 4294967296))
  let s4 := writeAt s3 14 [packedChannelsDepthByte channels bitDepth]
  let s5 := writeAt s4 18 (beBytes8 (totalSamples % 18446744073709551616))
  writeAt s5 18 md5sum

/-- The 4-byte stream marker `"fLaC"` written by `writeStreamHeader`. -/
def flacMarkerBytes : List Nat := [102, 76, 97, 67]

/-- The metadata block header `{0x00, 0x00, 0x00, 0x22}` written by
`writeStreamInfo` before the 34-byte body (type STREAMINFO, length 34). -/
def streamInfoBlockHeader : List Nat := [0, 0, 0, 34]

/-- Result of `writeStreamInfo` with a reliable sink: the source contains no
validation of its inputs — its only error paths propagate sink write
failures — so with the sink accepting bytes it always succeeds and emits the
block header followed by the 34-byte body. -/
def writeStreamInfoE (minBS maxBS sampleRate : Nat) (channels bitDepth : Int)
    (totalSamples : Nat) (md5sum : List Nat) : Except Unit (List Nat) :=
  Except.ok (streamInfoBlockHeader ++
    streamInfoBytes minBS maxBS sampleRate channels bitDepth totalSamples md5sum)

/-- Bytes emitted by `writeStreamHeader`: the `"fLaC"` marker, then the
STREAMINFO block header and body.  In `Encode` this happens before any
sample is read, and `e.md5sum` is still `nil` (it is never assigned
anywhere in the `flac` package), so the body is built with an empty
checksum slice. -/
def encodeHeaderBytes (minBS maxBS sampleRate : Nat) (channels bitDepth : Int)
    (totalSamples : Nat) : List Nat :=
  flacMarkerBytes ++ streamInfoBlockHeader ++
    streamInfoBytes minBS maxBS sampleRate channels bitDepth totalSamples []

/-- Byte sequence `Encode` has written after its block loop has consumed the
given blocks: the stream header (marker + STREAMINFO, with `md5sum` still
`nil`), then each block's raw little-endian payload from `encodeBlock`, in
order. -/
def encodeStreamBytes (minBS maxBS sampleRate : Nat) (channels bitDepth : Int)
    (totalSamples : Nat) (blocks : List (List Int)) : List Nat :=
  encodeHeaderBytes minBS maxBS sampleRate channels bitDepth totalSamples ++
    (blocks.map encodeBlockBytes).flatten

/-- Decoding the produced stream: skip the 42 header bytes (4-byte marker,
4-byte block header, 34-byte STREAMINFO body) and read back the raw
little-endian `int32` samples — the inverse of the layout `Encode` emits. -/
def decodeStreamBytes (s : List Nat) : List Int :=
  decodeSampleBytes (s.drop 42)

/-! ## The WAV sample source (`WAVFormat`, package `audio`) -/

/-- Error value returned by the modelled `os.File.Read`: end of file, or an
underlying I/O fault (which the deterministic in-memory model never
produces, matching the claims' fault-free sources). -/
inductive ReadErr where
  | eof
  | ioFault
deriving DecidableEq

/-- Bytes per sample as computed at the top of `WAVFormat.ReadSamples`:
`bytesPerSample := w.BitDepth() / 8` (Go integer division). -/
def bytesPerSample (bitDepth : Nat) : Nat := bitDepth / 8

/-- Go `os.File.Read` on a deterministic in-memory file holding `remaining`
bytes, with a destination buffer of `bufLen` bytes: a read into an empty
buffer returns `(0, nil)`; at end of file it returns `(0, io.EOF)`;
otherwise it fills as much of the buffer as data allows.  Returns
`((count, error), remaining bytes after the read)`. -/
def fileRead (remaining : List Nat) (bufLen : Nat) :
    (Nat × Option ReadErr) × List Nat :=
  if bufLen = 0 then ((0, none), remaining)
  else if remaining.isEmpty then ((0, some ReadErr.eof), remaining)
  else ((min bufLen remaining.length, none), remaining.drop (min bufLen remaining.length))

/-- Go `WAVFormat.bytesToInt32` (package `audio`): convert one sample's
bytes to a signed value according to the bit depth.  8-bit samples are
unsigned and re-centred; 16/24/32-bit samples are little-endian
two's-complement (the 24-bit case sign-extends explicitly); every other bit
depth falls to the `default` arm and yields 0. -/
def bytesToInt32 (bitDepth : Nat) (bytes : List Nat) : Int :=
  if bitDepth = 8 then
    (bytes.getD 0 0 : Int) - 128
  else if bitDepth = 16 then
    let u := bytes.getD 0 0 + 256 * bytes.getD 1 0
    if u % 65536 < 32768 then ((u % 65536 : Nat) : Int)
    else ((u % 65536 : Nat) : Int) - 65536
  else if bitDepth = 24 then
    let s := bytes.getD 0 0 + 256 * bytes.getD 1 0 + 65536 * bytes.getD 2 0
    if s % 16777216 < 8388608 then ((s % 16777216 : Nat) : Int)
    else ((s % 16777216 : Nat) : Int) - 16777216
  else if bitDepth = 32 then
    let u := bytes.getD 0 0 + 256 * bytes.getD 1 0 + 65536 * bytes.getD 2 0 +
      16777216 * bytes.getD 3 0
    if u % 4294967296 < 2147483648 then ((u % 4294967296 : Nat) : Int)
    else ((u % 4294967296 : Nat) : Int) - 4294967296
  else
    0

/-- Go `WAVFormat.ReadSamples` on the in-memory file model.  It sizes a byte
buffer of `len(buffer) * bytesPerSample`, reads from the file, returns a
wrapped error only for a non-`io.EOF` read error (an `io.EOF` is swallowed
by the `err != nil && err != io.EOF` guard), computes
`samplesRead = n / bytesPerSample`, converts each sample's bytes with
`bytesToInt32`, and returns `(samplesRead, nil)`.  The result is
`(((samplesRead, returned error), samples written into the buffer prefix),
remaining file bytes)`. -/
def wavReadSamples (bitDepth : Nat) (remaining : List Nat) (bufLen : Nat) :
    ((Nat × Option ReadErr) × List Int) × List Nat :=
  let bps := bytesPerSample bitDepth
  let r := fileRead remaining (bufLen * bps)
  let n := r.1.1
  match r.1.2 with
  | some ReadErr.ioFault => (((0, some ReadErr.ioFault), []), remaining)
  | _ =>
      let samplesRead := n / bps
      let readBytes := remaining.take n
      let samples := (List.range samplesRead).map fun i =>
        bytesToInt32 bitDepth ((readBytes.drop (i * bps)).take bps)
      (((samplesRead, none), samples), r.2)

/-! ## The `Encode` block loop (src/flac/encoder.go lines 85-104)

`Encode` loops: read into the block buffer, break when the returned error is
`io.EOF`, fail on any other non-nil error, and otherwise call `encodeBlock`
on the samples read and continue. -/

/-- Mutable state threaded through the block loop: remaining source bytes
and the bytes written to the output so far. -/
structure EncLoopState where
  remaining : List Nat
  out : List Nat
deriving DecidableEq

/-- Outcome of one iteration of the `Encode` block loop: continue with an
updated state, leave the loop (the `err == io.EOF` break), or return an
error. -/
inductive LoopStep where
  | next (st : EncLoopState)
  | exitLoop (st : EncLoopState)
  | fail (e : ReadErr)
deriving DecidableEq

/-- One iteration of the `Encode` block loop: `n, err := ReadSamples(buffer)`;
`if err == io.EOF { break }`; `if err != nil { return ... }`;
`encodeBlock(buffer[:n])`. -/
def encodeLoopIter (bitDepth bufLen : Nat) (st : EncLoopState) : LoopStep :=
  let r := wavReadSamples bitDepth st.remaining bufLen
  match r.1.1.2 with
  | some ReadErr.eof => LoopStep.exitLoop st
  | some ReadErr.ioFault => LoopStep.fail ReadErr.ioFault
  | none => LoopStep.next ⟨r.2, st.out ++ encodeBlockBytes r.1.2⟩

/-- Fuel-bounded run of the `Encode` block loop: `none` when the fuel is
exhausted with the loop still running, `some` of the loop's outcome when it
breaks or fails within the allotted iterations. -/
def encodeLoopRun (bitDepth bufLen : Nat) : Nat → EncLoopState →
    Option (Except ReadErr EncLoopState)
  | 0, _ => none
  | fuel + 1, st =>
      match encodeLoopIter bitDepth bufLen st with
      | LoopStep.exitLoop st' => some (Except.ok st')
      | LoopStep.fail e => some (Except.error e)
      | LoopStep.next st' => encodeLoopRun bitDepth bufLen fuel st'

/-! ## Finalization (`writeStreamFooter`) and prediction (`predictSamples`) -/

/-- Go `writeStreamFooter` (src/flac/encoder.go lines 212-217): its body is
`return fmt.Errorf("not implemented")` — it unconditionally fails. -/
def writeStreamFooterE : Except Unit Unit := Except.error ()

/-- What `Encode` does after its block loop exits (src/flac/encoder.go lines
106-117): call `writeStreamFooter`, return a wrapped error if it fails, and
only otherwise return `nil` with the written stream. -/
def encodeAfterLoop (st : EncLoopState) : Except Unit (List Nat) :=
  match writeStreamFooterE with
  | Except.error e => Except.error e
  | Except.ok _ => Except.ok st.out

/-- Go `predictSamples` (src/flac/encoder.go lines 254-261).  The body
contains no assignment to the `samples` slice and ends in `return nil, nil`;
the embedding returns the post-call contents of the slice alongside the
returned pair. -/
def predictSamples (samples : List Int) : List Int × (List Int × List Int) :=
  (samples, ([], []))

/-! ## Helper lemmas -/

theorem leBytesToInt32_int32ToLEBytes (v : Int)
    (h1 : -2147483648 ≤ v) (h2 : v < 2147483648) :
    leBytesToInt32 ((v % 4294967296).toNat % 256)
      ((v % 4294967296).toNat / 256 % 256)
      ((v % 4294967296).toNat / 65536 % 256)
      ((v % 4294967296).toNat / 16777216 % 256) = v := by
  have hnn : 0 ≤ v % 4294967296 := Int.emod_nonneg v (by norm_num)
  have hlt : v % 4294967296 < 4294967296 := Int.emod_lt_of_pos v (by norm_num)
  unfold leBytesToInt32
  dsimp only
  split <;> omega

theorem decodeSampleBytes_encode_append (samples : List Int) (rest : List Nat)
    (h : ∀ v ∈ samples, -2147483648 ≤ v ∧ v < 2147483648) :
    decodeSampleBytes (encodeBlockBytes samples ++ rest) =
      samples ++ decodeSampleBytes rest := by
  induction samples with
  | nil => simp [encodeBlockBytes]
  | cons v s ih =>
      have hv := h v (List.mem_cons_self v s)
      have hs : ∀ w ∈ s, -2147483648 ≤ w ∧ w < 2147483648 :=
        fun w hw => h w (List.mem_cons_of_mem v hw)
      simp only [encodeBlockBytes, List.map_cons, List.flatten_cons, List.append_assoc]
      show decodeSampleBytes (int32ToLEBytes v ++ ((s.map int32ToLEBytes).flatten ++ rest)) = _
      rw [int32ToLEBytes, uint32LEBytes]
      show leBytesToInt32 _ _ _ _ :: decodeSampleBytes (encodeBlockBytes s ++ rest) = _
      rw [leBytesToInt32_int32ToLEBytes v hv.1 hv.2, ih hs]
      rfl

theorem decodeSampleBytes_blocks (blocks : List (List Int))
    (h : ∀ b ∈ blocks, ∀ v ∈ b, -2147483648 ≤ v ∧ v < 2147483648) :
    decodeSampleBytes ((blocks.map encodeBlockBytes).flatten) = blocks.flatten := by
  induction blocks with
  | nil => rfl
  | cons b bs ih =>
      have hb := h b (List.mem_cons_self b bs)
      have hbs : ∀ c ∈ bs, ∀ v ∈ c, -2147483648 ≤ v ∧ v < 2147483648 :=
        fun c hc => h c (List.mem_cons_of_mem b hc)
      simp only [List.map_cons, List.flatten_cons]
      rw [decodeSampleBytes_encode_append b _ hb, ih hbs]

theorem writeAt_length (arr : List Nat) (off : Nat) (vals : List Nat) :
    (writeAt arr off vals).length = arr.length := by
  induction arr generalizing off vals with
  | nil => cases vals <;> simp [writeAt]
  | cons a arr ih =>
      cases vals with
      | nil => simp [writeAt]
      | cons v vals =>
          cases off with
          | zero => simp [writeAt, ih]
          | succ n => simp [writeAt, ih]

theorem streamInfoBytes_length (minBS maxBS sampleRate : Nat)
    (channels bitDepth : Int) (totalSamples : Nat) (md5sum : List Nat) :
    (streamInfoBytes minBS maxBS sampleRate channels bitDepth totalSamples
      md5sum).length = 34 := by
  simp [streamInfoBytes, writeAt_length]

theorem encodeHeaderBytes_length (minBS maxBS sampleRate : Nat)
    (channels bitDepth : Int) (totalSamples : Nat) :
    (encodeHeaderBytes minBS maxBS sampleRate channels bitDepth
      totalSamples).length = 42 := by
  simp [encodeHeaderBytes, flacMarkerBytes, streamInfoBlockHeader,
    streamInfoBytes_length]

theorem wavReadSamples_err_none (bitDepth : Nat) (remaining : List Nat)
    (bufLen : Nat) :
    (wavReadSamples bitDepth remaining bufLen).1.1.2 = none := by
  unfold wavReadSamples fileRead
  by_cases h1 : bufLen * bytesPerSample bitDepth = 0 <;>
    by_cases h2 : remaining.isEmpty <;>
      simp [h1, h2]

/-! ## The claims -/

/-- C1: for any valid sample sequence (each sample a signed 32-bit value),
decoding the bitstream produced by the encoder reconstructs the exact
original samples.  `encodeBlock` writes each sample's raw 4-byte
little-endian image, so the stream is the 42-byte header followed by the
samples verbatim, and reading that layout back recovers every sample
bit-exactly. -/
theorem c1_encode_decode_roundtrip (minBS maxBS sampleRate : Nat)
    (channels bitDepth : Int) (totalSamples : Nat) (blocks : List (List Int))
    (h : ∀ b ∈ blocks, ∀ v ∈ b, -2147483648 ≤ v ∧ v < 2147483648) :
    decodeStreamBytes (encodeStreamBytes minBS maxBS sampleRate channels
      bitDepth totalSamples blocks) = blocks.flatten := by
  unfold decodeStreamBytes encodeStreamBytes
  rw [show (42 : Nat) =
      (encodeHeaderBytes minBS maxBS sampleRate channels bitDepth
        totalSamples).length from
    (encodeHeaderBytes_length minBS maxBS sampleRate channels bitDepth
      totalSamples).symm]
  rw [List.drop_left]
  exact decodeSampleBytes_blocks blocks h

/-- Witness for C1 at a concrete input: two blocks of in-range samples
round-trip through the emitted stream. -/
theorem c1_witness :
    (∀ b ∈ [[1, -1], [5]], ∀ v ∈ b, (-2147483648 : Int) ≤ v ∧ v < 2147483648) ∧
      decodeStreamBytes (encodeStreamBytes 4096 4096 44100 2 16 3
        [[1, -1], [5]]) = [1, -1, 5] :=
  ⟨by decide,
    c1_encode_decode_roundtrip 4096 4096 44100 2 16 3 [[1, -1], [5]] (by decide)⟩

/-- C2: refuting evaluation.  The 16-byte checksum region of the emitted
stream descriptor (stream bytes 26..41) holds the big-endian total-sample
count followed by zeros — `Encode` writes the descriptor before reading any
sample and never computes or stores an MD5, so the region is identical for
two streams with different sample content and cannot equal a checksum of
the original sample bytes. -/
theorem c2_checksum_region_ignores_samples :
    ((encodeStreamBytes 4096 4096 44100 2 16 7 [[3, 4]]).drop 26).take 16 =
        beBytes8 7 ++ List.replicate 8 0 ∧
      ((encodeStreamBytes 4096 4096 44100 2 16 7 [[3, 4]]).drop 26).take 16 =
        ((encodeStreamBytes 4096 4096 44100 2 16 7 [[9, 9]]).drop 26).take 16 := by
  decide

/-- C3: refuting theorem.  The `Encode` block loop never terminates, for any
source contents and any number of iterations of fuel: `ReadSamples` maps the
file's `io.EOF` to a `nil` error, so the loop's `err == io.EOF` break never
fires and an exhausted source keeps yielding `(0, nil)` reads forever. -/
theorem c3_encode_loop_never_exits (bitDepth bufLen fuel : Nat)
    (st : EncLoopState) :
    encodeLoopRun bitDepth bufLen fuel st = none := by
  induction fuel generalizing st with
  | zero => rfl
  | succ n ih =>
      have h := wavReadSamples_err_none bitDepth st.remaining bufLen
      unfold encodeLoopRun encodeLoopIter
      rcases hw : wavReadSamples bitDepth st.remaining bufLen with
        ⟨⟨⟨cnt, err⟩, samples⟩, rem⟩
      rw [hw] at h
      simp only at h
      subst h
      exact ih _

/-- C4: refuting theorem.  Whenever the block loop exits, `Encode`'s
finalization fails: `writeStreamFooter` is `return fmt.Errorf("not
implemented")`, so `Encode` always propagates an error and can never reach
a successful Finalized return. -/
theorem c4_finalization_always_fails (st : EncLoopState) :
    encodeAfterLoop st = Except.error () := rfl

/-- C5: refuting evaluation.  `writeStreamInfo` packs
`byte(channels-1)<<4 | byte(bitDepth-1)` — shift 4, not 5 — so the channel
count does not sit in the upper 3 bits and the two fields overlap at bit 4.
At channels 2, bit depth 32, byte 14 of the body equals the byte for
channels 1 (the channel count is destroyed), and differs from the
spec-worded packing `(channels-1)<<5 | (bitDepth-1)`. -/
theorem c5_packed_byte_wrong_shift :
    (streamInfoBytes 4096 4096 44100 2 32 0 []).getD 14 0 =
        (streamInfoBytes 4096 4096 44100 1 32 0 []).getD 14 0 ∧
      packedChannelsDepthByte 2 32 = 31 ∧
      specChannelsDepthByte 2 32 = 63 ∧
      packedChannelsDepthByte 2 32 ≠ specChannelsDepthByte 2 32 := by
  decide

/-- C6: refuting evaluation.  `writeStreamInfo` writes the total sample
count at body bytes 18..25 and then copies the 16-byte MD5 slice at offset
18 as well, so the two fields overlap and the copy destroys the count.
With the repository's own test input (a 16-byte zero MD5 slice) and total
sample count 44100, bytes 18..25 of the body come out all zero instead of
the count's big-endian image. -/
theorem c6_md5_copy_overwrites_total :
    ((streamInfoBytes 4096 4096 44100 2 16 44100
          (List.replicate 16 0)).drop 18).take 8 = List.replicate 8 0 ∧
      beBytes8 44100 = [0, 0, 0, 0, 0, 0, 172, 68] := by
  decide

/-- C7: refuting evaluation.  `writeStreamInfo` performs no validation of
its inputs: with channel count 9 (outside [1,8]) and bit depth 33 (outside
[4,32]) it still succeeds and emits the block header plus the 34-byte body
instead of failing. -/
theorem c7_no_validation_out_of_range :
    writeStreamInfoE 4096 4096 44100 9 33 0 (List.replicate 16 0) =
      Except.ok (streamInfoBlockHeader ++
        streamInfoBytes 4096 4096 44100 9 33 0 (List.replicate 16 0)) := rfl

/-- C8 counterexample: bit depth 4 lies in the claimed supported range
[4,32], yet the bytes-per-sample divisor computed by `ReadSamples` is
`4 / 8 = 0`, so the samples-read division divides by zero. -/
theorem c8_counterexample :
    4 ≤ 4 ∧ 4 ≤ 32 ∧ bytesPerSample 4 = 0 := by
  decide

/-- C8 (amended): for every bit depth in [8,32] declared by the source, the
bytes-per-sample divisor computed by `ReadSamples` is nonzero, so the
samples-read division never divides by zero. -/
theorem c8_amended_divisor_nonzero (bitDepth : Nat)
    (h1 : 8 ≤ bitDepth) (h2 : bitDepth ≤ 32) :
    bytesPerSample bitDepth ≠ 0 := by
  unfold bytesPerSample
  omega

/-- Witness for the amended C8 at bit depth 16. -/
theorem c8_witness : 8 ≤ 16 ∧ 16 ≤ 32 ∧ bytesPerSample 16 ≠ 0 :=
  ⟨by decide, by decide, c8_amended_divisor_nonzero 16 (by decide) (by decide)⟩

/-- C9: `predictSamples` never mutates its input block — the samples hold
the same values after the call as before it (the body contains no write to
the slice). -/
theorem c9_predictSamples_preserves_input (samples : List Int) :
    (predictSamples samples).1 = samples := rfl

/-- C10: for every bit depth outside {8, 16, 24, 32}, `bytesToInt32` falls
to its default arm and returns 0; consequently `ReadSamples` on a 12-bit
source consumes the data, fills the buffer with zero-valued samples, and
reports success (count 3, nil error) instead of returning an error. -/
theorem c10_unsupported_depth_silent_zeros :
    (∀ bitDepth bytes, bitDepth ≠ 8 → bitDepth ≠ 16 → bitDepth ≠ 24 →
        bitDepth ≠ 32 → bytesToInt32 bitDepth bytes = 0) ∧
      wavReadSamples 12 [10, 20, 30] 3 = (((3, none), [0, 0, 0]), []) := by
  refine ⟨fun bd bs h8 h16 h24 h32 => ?_, by decide⟩
  simp [bytesToInt32, h8, h16, h24, h32]

/-- Witness for C10 at bit depth 12: the conversion yields 0. -/
theorem c10_witness : bytesToInt32 12 [10] = 0 :=
  c10_unsupported_depth_silent_zeros.1 12 [10] (by decide) (by decide)
    (by decide) (by decide)

end SoundCompression
